import Mathlib

/-!
Shallow embedding of `src/calc.py` (grid position-sizing calculator).

Prices, lots and money amounts are modelled as exact rationals (`ℚ`).
Each Lean definition mirrors the corresponding Python function; the
`main` orchestration is modelled by the `main_*` definitions below,
reproducing the order of operations of the script (in particular, the
display rounding of the dataframe happens *before* the final-price
validation and before the summary scalars are read off).
-/

namespace Calculadora

/-- Constant `LOTES_A_UNIDADES = 100` (1 lot = 100 units), `calc.py` line 7. -/
def LOTES_A_UNIDADES : ℚ := 100

/-- Constant `PASO = 5`, `calc.py` line 8. -/
def PASO : ℕ := 5

/-- Constant `TOTAL_UNIDADES = 120`, `calc.py` line 9. -/
def TOTAL_UNIDADES : ℕ := 120

/-- Constant `DIVISOR_LOTE = 1.5932`, `calc.py` line 10 (exact rational). -/
def DIVISOR_LOTE : ℚ := 1.5932

/-- Embedding of `generar_precios` (`calc.py` lines 16-23): descending price ladder.
`numero_puntos = total_unidades // paso + 1`, values `precio_inicial - i*paso`. -/
def generar_precios (precio_inicial : ℚ) (total_unidades paso : ℕ) : List ℚ :=
  let numero_puntos := total_unidades / paso + 1
  (List.range numero_puntos).map (fun (i : ℕ) => precio_inicial - (i : ℚ) * (paso : ℚ))

/-- The raw-lot cascade inside `asignar_lotes` (`calc.py` lines 31-52),
as a function of `diferencia = precio_inicial - precio`. -/
def lote_base (diferencia : ℚ) : ℚ :=
  if 0 ≤ diferencia ∧ diferencia ≤ 15 then 0.5
  else if diferencia = 20 then 0.0
  else if diferencia = 25 ∨ diferencia = 30 then 2.0
  else if 35 ≤ diferencia ∧ diferencia ≤ 55 then
    (if diferencia = 55 then 0.0 else 0.625)
  else if diferencia = 60 then 6.0
  else if 65 ≤ diferencia ∧ diferencia ≤ 90 then 2.0
  else if 91 ≤ diferencia ∧ diferencia ≤ 94 then 1.5
  else if 95 ≤ diferencia ∧ diferencia ≤ 120 then 3.375
  else 0.5

/-- Embedding of `asignar_lotes` (`calc.py` lines 25-56): one raw lot per price via the
cascade, then every lot divided by `DIVISOR_LOTE`. -/
def asignar_lotes (precio_inicial : ℚ) (precios : List ℚ) : List ℚ :=
  let lotes := precios.map (fun precio => lote_base (precio_inicial - precio))
  lotes.map (fun lote => lote / DIVISOR_LOTE)

/-- One row of the dataframe after `calcular_acumulados`
(`calc.py` lines 68-80): the columns Precio, Lotes, Lotes Acumulados,
Costo Acumulado, Break Even, Flotante, Puntos de salida, Ganancia Potencial. -/
structure Row where
  precio : ℚ
  lotes : ℚ
  lotesAcumulados : ℚ
  costoAcumulado : ℚ
  breakEven : ℚ
  flotante : ℚ
  puntosDeSalida : ℚ
  gananciaPotencial : ℚ
  deriving DecidableEq, Inhabited, Repr

/-- The left-to-right fold underlying `calcular_acumulados`: walks the
(Precio, Lotes) pairs carrying the running sums `cum` (Lotes Acumulados so
far) and `costo` (Costo Acumulado so far). Pandas' column-wise `cumsum`
and the derived columns are exactly this per-row computation. -/
def acumular (precio_inicial : ℚ) : List (ℚ × ℚ) → ℚ → ℚ → List Row
  | [], _, _ => []
  | (p, l) :: resto, cum, costo =>
    let cum2 := cum + l
    let costo2 := costo + p * l * LOTES_A_UNIDADES
    let be := costo2 / (cum2 * LOTES_A_UNIDADES)
    { precio := p, lotes := l, lotesAcumulados := cum2, costoAcumulado := costo2,
      breakEven := be,
      flotante := (p - be) * (cum2 * LOTES_A_UNIDADES),
      puntosDeSalida := |p - be|,
      gananciaPotencial := (precio_inicial - be) * (cum2 * LOTES_A_UNIDADES) } ::
      acumular precio_inicial resto cum2 costo2

/-- Embedding of `calcular_acumulados` (`calc.py` lines 68-80) on a dataframe whose
columns Precio and Lotes are the two given lists. -/
def calcular_acumulados (precios lotes : List ℚ) (precio_inicial : ℚ) : List Row :=
  acumular precio_inicial (precios.zip lotes) 0 0

/-- Embedding of `validar_precio_final` (`calc.py` lines 82-90): reads the last Precio
(`iloc[-1]`, which raises on an empty frame, modelled by `none`) and returns
`False` (reporting an error message) when it differs from the expected
price, `True` otherwise. -/
def validar_precio_final (precios : List ℚ) (precio_esperado : ℚ) : Option Bool :=
  match precios.getLast? with
  | none => none
  | some ultimo_precio_calculado => some (decide (ultimo_precio_calculado = precio_esperado))

/-- Round-half-to-even to an integer, the rounding used by
pandas/numpy `.round`. -/
def round_half_even (x : ℚ) : ℤ :=
  if x - ⌊x⌋ < 1/2 then ⌊x⌋
  else if 1/2 < x - ⌊x⌋ then ⌊x⌋ + 1
  else if ⌊x⌋ % 2 = 0 then ⌊x⌋ else ⌊x⌋ + 1

/-- Pandas `.round(nd)`: round-half-to-even at `nd` decimal places. -/
def round_dec (nd : ℕ) (x : ℚ) : ℚ :=
  (round_half_even (x * 10 ^ nd) : ℚ) / 10 ^ nd

/-- The full-precision row sequence computed by `main` (`calc.py`
lines 111-124): ladder, lots, dataframe, accumulation. -/
def pipeline_rows (precio_inicial : ℚ) : List Row :=
  let precios := generar_precios precio_inicial TOTAL_UNIDADES PASO
  let lotes := asignar_lotes precio_inicial precios
  calcular_acumulados precios lotes precio_inicial

/-- The in-place rounding of the dataframe columns in `main`
(`calc.py` lines 127-134): 2 decimals everywhere except 4 decimals for
Lotes and Lotes Acumulados. -/
def redondear_fila (r : Row) : Row :=
  { precio := round_dec 2 r.precio,
    lotes := round_dec 4 r.lotes,
    lotesAcumulados := round_dec 4 r.lotesAcumulados,
    costoAcumulado := round_dec 2 r.costoAcumulado,
    breakEven := round_dec 2 r.breakEven,
    flotante := round_dec 2 r.flotante,
    puntosDeSalida := round_dec 2 r.puntosDeSalida,
    gananciaPotencial := round_dec 2 r.gananciaPotencial }

/-- The dataframe held by `main` after the rounding step
(`calc.py` line 134): every row rounded in place. -/
def main_df (precio_inicial : ℚ) : List Row :=
  (pipeline_rows precio_inicial).map redondear_fila

/-- The validation performed by `main` (`calc.py` lines 137-140): it runs
on the *rounded* dataframe, against `precio_esperado = precio_inicial -
TOTAL_UNIDADES`. -/
def main_validacion (precio_inicial : ℚ) : Option Bool :=
  validar_precio_final ((main_df precio_inicial).map Row.precio)
    (precio_inicial - (TOTAL_UNIDADES : ℚ))

/-- The four summary scalars read by `main` (`calc.py` lines 148-151) from
the last row of the *rounded* dataframe: final Break Even, final Flotante,
final Ganancia Potencial, final Lotes Acumulados. -/
def main_resumen (precio_inicial : ℚ) : Option (ℚ × ℚ × ℚ × ℚ) :=
  ((main_df precio_inicial).getLast?).map
    (fun r => (r.breakEven, r.flotante, r.gananciaPotencial, r.lotesAcumulados))

/-- The lot cascade as written in the specification's rule table: a flat
first-match-wins list with the `35 ≤ d ≤ 55, d ≠ 55` arm followed by the
`d = 55` arm, used to compare the spec's table against `lote_base`. -/
def cascada_spec (d : ℚ) : ℚ :=
  if 0 ≤ d ∧ d ≤ 15 then 0.5
  else if d = 20 then 0.0
  else if d = 25 ∨ d = 30 then 2.0
  else if 35 ≤ d ∧ d ≤ 55 ∧ d ≠ 55 then 0.625
  else if d = 55 then 0.0
  else if d = 60 then 6.0
  else if 65 ≤ d ∧ d ≤ 90 then 2.0
  else if 91 ≤ d ∧ d ≤ 94 then 1.5
  else if 95 ≤ d ∧ d ≤ 120 then 3.375
  else 0.5

/-- Running sum of the Lotes entries of a (Precio, Lotes) prefix. -/
def sumLotes (pares : List (ℚ × ℚ)) : ℚ :=
  (pares.map Prod.snd).sum

/-- Running sum of `Precio * Lotes * LOTES_A_UNIDADES` over a prefix. -/
def sumCosto (pares : List (ℚ × ℚ)) : ℚ :=
  (pares.map (fun pl => pl.1 * pl.2 * LOTES_A_UNIDADES)).sum

/-- The row contents predicted for a position with running sums
`cum`/`costo`: exactly the per-row formulas of `calcular_acumulados`. -/
def filaSpec (p0 p l cum costo : ℚ) : Row :=
  let be := costo / (cum * LOTES_A_UNIDADES)
  { precio := p, lotes := l, lotesAcumulados := cum, costoAcumulado := costo,
    breakEven := be,
    flotante := (p - be) * (cum * LOTES_A_UNIDADES),
    puntosDeSalida := |p - be|,
    gananciaPotencial := (p0 - be) * (cum * LOTES_A_UNIDADES) }

/-- The source cascade agrees pointwise with the spec's flat rule table. -/
lemma lote_base_eq_cascada (d : ℚ) : lote_base d = cascada_spec d := by
  unfold lote_base cascada_spec
  by_cases h1 : 0 ≤ d ∧ d ≤ 15
  · simp only [if_pos h1]
  simp only [if_neg h1]
  by_cases h2 : d = 20
  · simp only [if_pos h2]
  simp only [if_neg h2]
  by_cases h3 : d = 25 ∨ d = 30
  · simp only [if_pos h3]
  simp only [if_neg h3]
  by_cases h5 : d = 55
  · subst h5
    have h4 : (35 : ℚ) ≤ 55 ∧ (55 : ℚ) ≤ 55 := by norm_num
    have hC : ¬((35 : ℚ) ≤ 55 ∧ (55 : ℚ) ≤ 55 ∧ (55 : ℚ) ≠ 55) := by simp
    simp only [if_pos h4, if_pos rfl, if_neg hC, if_true]
  · by_cases h4 : 35 ≤ d ∧ d ≤ 55
    · have hc : 35 ≤ d ∧ d ≤ 55 ∧ d ≠ 55 := ⟨h4.1, h4.2, h5⟩
      simp only [if_pos h4, if_neg h5, if_pos hc]
    · have hC : ¬(35 ≤ d ∧ d ≤ 55 ∧ d ≠ 55) := fun hc => h4 ⟨hc.1, hc.2.1⟩
      simp only [if_neg h4, if_neg hC, if_neg h5]

/-- Every raw lot produced by the cascade is non-negative. -/
lemma lote_base_nonneg (d : ℚ) : 0 ≤ lote_base d := by
  unfold lote_base
  split_ifs <;> norm_num

/-- Every adjusted lot produced by `asignar_lotes` is non-negative. -/
lemma asignar_lotes_nonneg (precio_inicial : ℚ) (precios : List ℚ) :
    ∀ l ∈ asignar_lotes precio_inicial precios, 0 ≤ l := by
  intro l hl
  simp only [asignar_lotes, List.map_map, List.mem_map] at hl
  obtain ⟨p, -, rfl⟩ := hl
  have h1 := lote_base_nonneg (precio_inicial - p)
  have h2 : (0 : ℚ) < DIVISOR_LOTE := by norm_num [DIVISOR_LOTE]
  exact div_nonneg h1 h2.le

lemma acumular_length (p0 : ℚ) (pares : List (ℚ × ℚ)) :
    ∀ c s : ℚ, (acumular p0 pares c s).length = pares.length := by
  induction pares with
  | nil => intro c s; rfl
  | cons q resto ih => intro c s; obtain ⟨qp, ql⟩ := q; simp [acumular, ih]

lemma acumular_getElem? (p0 : ℚ) (pares : List (ℚ × ℚ)) :
    ∀ (c s : ℚ) (i : ℕ) (p l : ℚ), pares[i]? = some (p, l) →
      (acumular p0 pares c s)[i]? =
        some (filaSpec p0 p l (c + sumLotes (pares.take (i + 1)))
          (s + sumCosto (pares.take (i + 1)))) := by
  induction pares with
  | nil => intro c s i p l h; simp at h
  | cons q resto ih =>
    intro c s i p l h
    obtain ⟨qp, ql⟩ := q
    cases i with
    | zero =>
      simp only [List.getElem?_cons_zero, Option.some_inj, Prod.mk.injEq] at h
      obtain ⟨rfl, rfl⟩ := h
      simp only [acumular, List.getElem?_cons_zero, Option.some_inj, List.take_succ_cons,
        List.take_zero, sumLotes, sumCosto, List.map_cons, List.map_nil, List.sum_cons,
        List.sum_nil, filaSpec]
      simp [Row.mk.injEq]
    | succ n =>
      simp only [List.getElem?_cons_succ] at h
      have hrec := ih (c + ql) (s + qp * ql * LOTES_A_UNIDADES) n p l h
      simp only [acumular, List.getElem?_cons_succ]
      rw [hrec]
      simp only [List.take_succ_cons, sumLotes, sumCosto, List.map_cons, List.sum_cons,
        Option.some_inj]
      congr 1 <;> ring

lemma generar_precios_length (p0 : ℚ) (t paso : ℕ) :
    (generar_precios p0 t paso).length = t / paso + 1 := by
  unfold generar_precios
  rw [List.length_map, List.length_range]

lemma generar_precios_getElem? (p0 : ℚ) (t paso i : ℕ) (h : i < t / paso + 1) :
    (generar_precios p0 t paso)[i]? = some (p0 - (i : ℚ) * (paso : ℚ)) := by
  unfold generar_precios
  rw [List.getElem?_map, List.getElem?_range h, Option.map_some']

lemma generar_precios_getLast? (p0 : ℚ) (t paso : ℕ) :
    (generar_precios p0 t paso).getLast? = some (p0 - ((t / paso : ℕ) : ℚ) * (paso : ℚ)) := by
  unfold generar_precios
  rw [List.getLast?_map, List.range_succ, List.getLast?_concat, Option.map_some']

lemma generar_precios_mem (p0 : ℚ) (t paso : ℕ) (p : ℚ) :
    p ∈ generar_precios p0 t paso ↔
      ∃ i : ℕ, i < t / paso + 1 ∧ p = p0 - (i : ℚ) * (paso : ℚ) := by
  unfold generar_precios
  constructor
  · intro hp
    obtain ⟨i, hi, hfi⟩ := List.mem_map.mp hp
    exact ⟨i, List.mem_range.mp hi, hfi.symm⟩
  · rintro ⟨i, hi, rfl⟩
    exact List.mem_map.mpr ⟨i, List.mem_range.mpr hi, rfl⟩

/-- C1: `asignar_lotes` returns one lot per input price, in order and of the
same length; the lot for a price is the first-match-wins cascade of the
spec's rule table applied to `d = start − price` (including the `0.5`
default on the gaps), and every raw lot — zeros and defaults included — is
divided by the fixed divisor `1.5932`. -/
theorem C1_asignar_lotes_contract (start : ℚ) (precios : List ℚ) :
    (asignar_lotes start precios).length = precios.length ∧
    asignar_lotes start precios =
      precios.map (fun precio => cascada_spec (start - precio) / 1.5932) := by
  constructor
  · simp [asignar_lotes]
  · unfold asignar_lotes DIVISOR_LOTE
    simp only [List.map_map]
    congr 1
    funext precio
    simp [Function.comp, lote_base_eq_cascada]

/-- C2: with `step = 5` and `totalSpan = 120` the ladder has exactly 25
levels, `level[i] = start − i*5`, each level is the previous one minus 5
(hence strictly decreasing), `level[0] = start`, `level[24] = start − 120`;
in general the count is `totalSpan / step + 1` (integer division) and the
ladder is never empty when `step > 0`. -/
theorem C2_generar_precios_ladder (start : ℚ) :
    ((generar_precios start 120 5).length = 25 ∧
     (∀ i : ℕ, i < 25 → (generar_precios start 120 5)[i]? = some (start - (i : ℚ) * 5)) ∧
     (∀ i : ℕ, i + 1 < 25 → ∀ x y : ℚ,
        (generar_precios start 120 5)[i]? = some x →
        (generar_precios start 120 5)[i + 1]? = some y → y = x - 5 ∧ y < x) ∧
     (generar_precios start 120 5)[0]? = some start ∧
     (generar_precios start 120 5)[24]? = some (start - 120)) ∧
    (∀ total paso : ℕ, 0 < paso →
      (generar_precios start total paso).length = total / paso + 1 ∧
      1 ≤ (generar_precios start total paso).length) := by
  have hlen : (120 : ℕ) / 5 + 1 = 25 := by norm_num
  have hget : ∀ i : ℕ, i < 25 →
      (generar_precios start 120 5)[i]? = some (start - (i : ℚ) * 5) := by
    intro i hi
    have := generar_precios_getElem? start 120 5 i (by omega)
    simpa using this
  refine ⟨⟨?_, hget, ?_, ?_, ?_⟩, ?_⟩
  · rw [generar_precios_length, hlen]
  · intro i hi x y hx hy
    rw [hget i (by omega)] at hx
    rw [hget (i + 1) hi] at hy
    obtain rfl := Option.some_inj.mp hx
    obtain rfl := Option.some_inj.mp hy
    constructor
    · push_cast
      ring
    · push_cast
      linarith
  · have := hget 0 (by norm_num)
    simpa using this
  · rw [hget 24 (by norm_num)]
    norm_num
  · intro total paso hpaso
    refine ⟨generar_precios_length start total paso, ?_⟩
    rw [generar_precios_length]
    exact Nat.le_add_left 1 (total / paso)

/-- C4: the boundary distances — `d = 55` yields a final lot of exactly 0
(not `0.625 / 1.5932`) even though 55 lies in the `35 ≤ d ≤ 55` range,
`d = 20` yields 0, and `d = 60` yields `6 / 1.5932`. -/
theorem C4_boundary_distances (start : ℚ) :
    asignar_lotes start [start - 55, start - 20, start - 60] =
      [0, 0, 6 / 1.5932] := by
  simp only [asignar_lotes, List.map_cons, List.map_nil]
  rw [(by ring : start - (start - 55) = (55 : ℚ)),
    (by ring : start - (start - 20) = (20 : ℚ)),
    (by ring : start - (start - 60) = (60 : ℚ))]
  norm_num [lote_base, DIVISOR_LOTE]

/-- C3: `calcular_acumulados` is a pure left-to-right fold over the
(Precio, Lotes) rows: each row keeps its price and lot in input order,
`Lotes Acumulados` is the running sum of lots, `Costo Acumulado` the
running sum of `price * lot * LOTES_A_UNIDADES`, and Break Even, Flotante,
Puntos de salida and Ganancia Potencial follow the stated formulas. -/
theorem C3_calcular_acumulados_fold (start : ℚ) (precios lotes : List ℚ)
    (i : ℕ) (p l : ℚ) (h : (precios.zip lotes)[i]? = some (p, l)) :
    (calcular_acumulados precios lotes start).length = (precios.zip lotes).length ∧
    ∃ r : Row, (calcular_acumulados precios lotes start)[i]? = some r ∧
      r.precio = p ∧ r.lotes = l ∧
      r.lotesAcumulados = sumLotes ((precios.zip lotes).take (i + 1)) ∧
      r.costoAcumulado = sumCosto ((precios.zip lotes).take (i + 1)) ∧
      r.breakEven = r.costoAcumulado / (r.lotesAcumulados * LOTES_A_UNIDADES) ∧
      r.flotante = (r.precio - r.breakEven) * (r.lotesAcumulados * LOTES_A_UNIDADES) ∧
      r.puntosDeSalida = |r.precio - r.breakEven| ∧
      r.gananciaPotencial = (start - r.breakEven) * (r.lotesAcumulados * LOTES_A_UNIDADES) := by
  refine ⟨acumular_length start (precios.zip lotes) 0 0, ?_⟩
  refine ⟨filaSpec start p l (0 + sumLotes ((precios.zip lotes).take (i + 1)))
      (0 + sumCosto ((precios.zip lotes).take (i + 1))),
    acumular_getElem? start (precios.zip lotes) 0 0 i p l h, ?_⟩
  simp [filaSpec]

/-- C5: `validar_precio_final` reports failure (returns `false`, not an
exception) exactly when the last price differs from the expected value and
success exactly when they are equal; in particular the ladder for
`start = 2700`, `totalSpan = 121`, `step = 5` ends at `2580 ≠ 2579`, so the
final-price-mismatch failure fires. -/
theorem C5_validar_precio_final (precios : List ℚ) (esperado ultimo : ℚ)
    (h : precios.getLast? = some ultimo) :
    ((validar_precio_final precios esperado = some false ↔ ultimo ≠ esperado) ∧
     (validar_precio_final precios esperado = some true ↔ ultimo = esperado)) ∧
    validar_precio_final (generar_precios 2700 121 5) (2700 - 121) = some false := by
  constructor
  · unfold validar_precio_final
    rw [h]
    constructor
    · simp only [Option.some_inj]
      exact decide_eq_false_iff_not
    · simp only [Option.some_inj]
      exact decide_eq_true_iff
  · unfold validar_precio_final
    rw [generar_precios_getLast?]
    simp
    norm_num

/-- C6: in `calcular_acumulados` the Break Even denominator
`Lotes Acumulados * LOTES_A_UNIDADES` vanishes exactly when
`Lotes Acumulados = 0` at that row, and — lots being non-negative — this
can happen only when the very first lot is 0; the computation itself is
total (the row is produced, not an exception). -/
theorem C6_break_even_zero_denominator (start : ℚ) (precios lotes : List ℚ)
    (hnn : ∀ l ∈ lotes, 0 ≤ l) (i : ℕ)
    (h : i < (calcular_acumulados precios lotes start).length) :
    (((calcular_acumulados precios lotes start).getD i default).lotesAcumulados *
        LOTES_A_UNIDADES = 0 ↔
      ((calcular_acumulados precios lotes start).getD i default).lotesAcumulados = 0) ∧
    (((calcular_acumulados precios lotes start).getD i default).lotesAcumulados = 0 →
      lotes[0]? = some 0) := by
  have hlen : (calcular_acumulados precios lotes start).length =
      (precios.zip lotes).length := acumular_length start (precios.zip lotes) 0 0
  have hi : i < (precios.zip lotes).length := hlen ▸ h
  have hq : (precios.zip lotes)[i]? = some (precios.zip lotes)[i] :=
    List.getElem?_eq_getElem hi
  rcases hpair : (precios.zip lotes)[i] with ⟨p, l⟩
  rw [hpair] at hq
  have hrow := acumular_getElem? start (precios.zip lotes) 0 0 i p l hq
  have hgetD : (calcular_acumulados precios lotes start).getD i default =
      filaSpec start p l (0 + sumLotes ((precios.zip lotes).take (i + 1)))
        (0 + sumCosto ((precios.zip lotes).take (i + 1))) := by
    rw [List.getD_eq_getElem?_getD]
    unfold calcular_acumulados
    rw [hrow]
    rfl
  rw [hgetD]
  simp only [filaSpec, zero_add]
  constructor
  · constructor
    · intro h0
      rcases mul_eq_zero.mp h0 with h1 | h1
      · exact h1
      · exact absurd h1 (by norm_num [LOTES_A_UNIDADES])
    · intro h0
      rw [h0, zero_mul]
  · intro h0
    have hzlen : 0 < (precios.zip lotes).length := lt_of_le_of_lt (Nat.zero_le i) hi
    match precios, lotes, hnn, hzlen with
    | a :: as, b :: bs, hnn, _ =>
      have htake : ((a :: as).zip (b :: bs)).take (i + 1) =
          (a, b) :: (as.zip bs).take i := by
        rw [List.zip_cons_cons, List.take_succ_cons]
      rw [htake] at h0
      simp only [sumLotes, List.map_cons, List.sum_cons] at h0
      have hrest : 0 ≤ (((as.zip bs).take i).map Prod.snd).sum := by
        apply List.sum_nonneg
        intro x hx
        obtain ⟨⟨xp, xl⟩, hmem, rfl⟩ := List.mem_map.mp hx
        have : (xp, xl) ∈ as.zip bs := List.mem_of_mem_take hmem
        exact hnn xl (List.mem_cons_of_mem b (List.of_mem_zip this).2)
      have hb : 0 ≤ b := hnn b (List.mem_cons_self b bs)
      have hb0 : b = 0 := by linarith
      rw [hb0]
      simp

lemma asignar_lotes_length (p0 : ℚ) (precios : List ℚ) :
    (asignar_lotes p0 precios).length = precios.length := by
  simp [asignar_lotes]

lemma pipeline_rows_length (p0 : ℚ) : (pipeline_rows p0).length = 25 := by
  have h1 : (pipeline_rows p0).length =
      ((generar_precios p0 TOTAL_UNIDADES PASO).zip
        (asignar_lotes p0 (generar_precios p0 TOTAL_UNIDADES PASO))).length :=
    acumular_length p0 _ 0 0
  rw [h1, List.length_zip, asignar_lotes_length, generar_precios_length]
  norm_num [TOTAL_UNIDADES, PASO]

lemma calcular_acumulados_mono (start : ℚ) (precios lotes : List ℚ)
    (hnn : ∀ l ∈ lotes, 0 ≤ l) (i : ℕ)
    (h : i + 1 < (calcular_acumulados precios lotes start).length) :
    ((calcular_acumulados precios lotes start).getD i default).lotesAcumulados ≤
      ((calcular_acumulados precios lotes start).getD (i + 1) default).lotesAcumulados := by
  have hlen := acumular_length start (precios.zip lotes) 0 0
  have hi1 : i + 1 < (precios.zip lotes).length := hlen ▸ h
  have hi : i < (precios.zip lotes).length := Nat.lt_of_succ_lt hi1
  rcases hp1 : (precios.zip lotes)[i] with ⟨p1, l1⟩
  rcases hp2 : (precios.zip lotes)[i + 1] with ⟨p2, l2⟩
  have hq1 : (precios.zip lotes)[i]? = some (p1, l1) := by
    rw [List.getElem?_eq_getElem hi, hp1]
  have hq2 : (precios.zip lotes)[i + 1]? = some (p2, l2) := by
    rw [List.getElem?_eq_getElem hi1, hp2]
  have hd1 : (calcular_acumulados precios lotes start).getD i default =
      filaSpec start p1 l1 (0 + sumLotes ((precios.zip lotes).take (i + 1)))
        (0 + sumCosto ((precios.zip lotes).take (i + 1))) := by
    rw [List.getD_eq_getElem?_getD]
    unfold calcular_acumulados
    rw [acumular_getElem? start (precios.zip lotes) 0 0 i p1 l1 hq1]
    rfl
  have hd2 : (calcular_acumulados precios lotes start).getD (i + 1) default =
      filaSpec start p2 l2 (0 + sumLotes ((precios.zip lotes).take (i + 1 + 1)))
        (0 + sumCosto ((precios.zip lotes).take (i + 1 + 1))) := by
    rw [List.getD_eq_getElem?_getD]
    unfold calcular_acumulados
    rw [acumular_getElem? start (precios.zip lotes) 0 0 (i + 1) p2 l2 hq2]
    rfl
  rw [hd1, hd2]
  simp only [filaSpec, zero_add]
  have htake : (precios.zip lotes).take (i + 1 + 1) =
      (precios.zip lotes).take (i + 1) ++ ((precios.zip lotes)[i + 1]?).toList :=
    List.take_succ
  rw [htake, hq2]
  simp only [sumLotes, Option.toList_some, List.map_append, List.sum_append,
    List.map_cons, List.map_nil, List.sum_cons, List.sum_nil]
  have hl2 : 0 ≤ l2 := hnn l2 (List.of_mem_zip (List.getElem?_mem hq2)).2
  linarith

/-- C7: across the rows of the full pipeline, `Lotes Acumulados` is
non-decreasing from each row to the next — every lot assigned by
`asignar_lotes` is non-negative. -/
theorem C7_lotes_acumulados_monotone (start : ℚ) (i : ℕ)
    (h : i + 1 < (pipeline_rows start).length) :
    ((pipeline_rows start).getD i default).lotesAcumulados ≤
      ((pipeline_rows start).getD (i + 1) default).lotesAcumulados :=
  calcular_acumulados_mono start (generar_precios start TOTAL_UNIDADES PASO)
    (asignar_lotes start (generar_precios start TOTAL_UNIDADES PASO))
    (asignar_lotes_nonneg start _) i h

/-- C9: in the composed pipeline every distance `start − price` is
`5·k` for some `k ≤ 24` (a multiple of 5 in `[0, 120]`); hence it never
falls in `91 ≤ d ≤ 94`, and it always satisfies one of the explicit
non-default cascade conditions, so the `1.5` branch and the catch-all
default branch are never taken. -/
theorem C9_pipeline_distances (start p : ℚ) (hp : p ∈ generar_precios start 120 5) :
    (∃ k : ℕ, k ≤ 24 ∧ start - p = 5 * (k : ℚ)) ∧
    ¬(91 ≤ start - p ∧ start - p ≤ 94) ∧
    ((0 ≤ start - p ∧ start - p ≤ 15) ∨ start - p = 20 ∨ start - p = 25 ∨
     start - p = 30 ∨ (35 ≤ start - p ∧ start - p ≤ 55) ∨ start - p = 60 ∨
     (65 ≤ start - p ∧ start - p ≤ 90) ∨ (95 ≤ start - p ∧ start - p ≤ 120)) := by
  obtain ⟨i, hi, hpe⟩ := (generar_precios_mem start 120 5 p).mp hp
  norm_num at hi
  have hd : start - p = (i : ℚ) * 5 := by
    rw [hpe]
    push_cast
    ring
  rw [hd]
  refine ⟨⟨i, by omega, by ring⟩, ?_, ?_⟩
  · interval_cases i <;> norm_num
  · interval_cases i <;> norm_num

lemma sumCosto_le (start : ℚ) (pares : List (ℚ × ℚ))
    (hq : ∀ q ∈ pares, q.1 ≤ start ∧ 0 ≤ q.2) :
    0 ≤ sumLotes pares ∧
      sumCosto pares ≤ start * (sumLotes pares * LOTES_A_UNIDADES) := by
  induction pares with
  | nil => simp [sumLotes, sumCosto]
  | cons q resto ih =>
    obtain ⟨qp, ql⟩ := q
    have hhead := hq (qp, ql) (List.mem_cons_self _ _)
    have hrest := ih (fun x hx => hq x (List.mem_cons_of_mem _ hx))
    simp only [sumLotes, sumCosto, List.map_cons, List.sum_cons] at hrest ⊢
    have hL : (0 : ℚ) ≤ LOTES_A_UNIDADES := by norm_num [LOTES_A_UNIDADES]
    constructor
    · have := hhead.2
      linarith [hrest.1]
    · have h1 : qp * ql ≤ start * ql := mul_le_mul_of_nonneg_right hhead.1 hhead.2
      have h2 : qp * ql * LOTES_A_UNIDADES ≤ start * ql * LOTES_A_UNIDADES :=
        mul_le_mul_of_nonneg_right h1 hL
      have h3 : start * ((ql + (resto.map Prod.snd).sum) * LOTES_A_UNIDADES) =
          start * ql * LOTES_A_UNIDADES +
            start * ((resto.map Prod.snd).sum * LOTES_A_UNIDADES) := by
        ring
      rw [h3]
      linarith [hrest.2]

/-- C10: in every pipeline row with strictly positive `Lotes Acumulados`,
the break-even price is at most the starting price (a non-negatively
weighted average of ladder prices, all ≤ start), so the potential profit
`Ganancia Potencial` at that row is non-negative. -/
theorem C10_break_even_le_start (start : ℚ) (i : ℕ)
    (h : i < (pipeline_rows start).length)
    (hpos : 0 < ((pipeline_rows start).getD i default).lotesAcumulados) :
    ((pipeline_rows start).getD i default).breakEven ≤ start ∧
    0 ≤ ((pipeline_rows start).getD i default).gananciaPotencial := by
  have hlen : (pipeline_rows start).length =
      ((generar_precios start TOTAL_UNIDADES PASO).zip
        (asignar_lotes start (generar_precios start TOTAL_UNIDADES PASO))).length :=
    acumular_length start _ 0 0
  set precios := generar_precios start TOTAL_UNIDADES PASO with hprecios
  set lotes := asignar_lotes start precios with hlotes
  have hi : i < (precios.zip lotes).length := hlen ▸ h
  rcases hp1 : (precios.zip lotes)[i] with ⟨p1, l1⟩
  have hq1 : (precios.zip lotes)[i]? = some (p1, l1) := by
    rw [List.getElem?_eq_getElem hi, hp1]
  have hd1 : (pipeline_rows start).getD i default =
      filaSpec start p1 l1 (0 + sumLotes ((precios.zip lotes).take (i + 1)))
        (0 + sumCosto ((precios.zip lotes).take (i + 1))) := by
    rw [List.getD_eq_getElem?_getD]
    have hrow := acumular_getElem? start (precios.zip lotes) 0 0 i p1 l1 hq1
    have : (pipeline_rows start)[i]? = (acumular start (precios.zip lotes) 0 0)[i]? := rfl
    rw [this, hrow]
    rfl
  rw [hd1] at hpos ⊢
  simp only [filaSpec, zero_add] at hpos ⊢
  have hmem : ∀ q ∈ (precios.zip lotes).take (i + 1), q.1 ≤ start ∧ 0 ≤ q.2 := by
    intro q hqmem
    have hqz := List.mem_of_mem_take hqmem
    have hq1m : q.1 ∈ precios := (List.of_mem_zip hqz).1
    have hq2m : q.2 ∈ lotes := (List.of_mem_zip hqz).2
    constructor
    · obtain ⟨j, hj, hje⟩ := (generar_precios_mem start TOTAL_UNIDADES PASO q.1).mp hq1m
      have hnn : (0 : ℚ) ≤ (j : ℚ) * ((PASO : ℕ) : ℚ) := by positivity
      rw [hje]
      linarith
    · exact asignar_lotes_nonneg start precios q.2 hq2m
  have hsum := sumCosto_le start ((precios.zip lotes).take (i + 1)) hmem
  have hLpos : (0 : ℚ) < LOTES_A_UNIDADES := by norm_num [LOTES_A_UNIDADES]
  have hden : 0 < sumLotes ((precios.zip lotes).take (i + 1)) * LOTES_A_UNIDADES :=
    mul_pos hpos hLpos
  have hbe : sumCosto ((precios.zip lotes).take (i + 1)) /
      (sumLotes ((precios.zip lotes).take (i + 1)) * LOTES_A_UNIDADES) ≤ start := by
    rw [div_le_iff₀ hden]
    exact hsum.2
  refine ⟨hbe, ?_⟩
  exact mul_nonneg (sub_nonneg.mpr hbe) hden.le

lemma asignar_lotes_getElem? (p0 : ℚ) (precios : List ℚ) (i : ℕ) (p : ℚ)
    (h : precios[i]? = some p) :
    (asignar_lotes p0 precios)[i]? = some (lote_base (p0 - p) / DIVISOR_LOTE) := by
  unfold asignar_lotes
  rw [List.getElem?_map, List.getElem?_map, h]
  rfl

lemma pipeline_rows_getElem?_precio (p0 : ℚ) (i : ℕ) (h : i < 25) :
    ∃ r : Row, (pipeline_rows p0)[i]? = some r ∧ r.precio = p0 - (i : ℚ) * 5 := by
  have hp : (generar_precios p0 TOTAL_UNIDADES PASO)[i]? =
      some (p0 - (i : ℚ) * ((PASO : ℕ) : ℚ)) := by
    apply generar_precios_getElem?
    show i < TOTAL_UNIDADES / PASO + 1
    norm_num [TOTAL_UNIDADES, PASO]
    omega
  have hl := asignar_lotes_getElem? p0 (generar_precios p0 TOTAL_UNIDADES PASO) i _ hp
  have hz : ((generar_precios p0 TOTAL_UNIDADES PASO).zip
      (asignar_lotes p0 (generar_precios p0 TOTAL_UNIDADES PASO)))[i]? =
      some (p0 - (i : ℚ) * ((PASO : ℕ) : ℚ),
        lote_base (p0 - (p0 - (i : ℚ) * ((PASO : ℕ) : ℚ))) / DIVISOR_LOTE) :=
    List.getElem?_zip_eq_some.mpr ⟨hp, hl⟩
  have hrow := acumular_getElem? p0 _ 0 0 i _ _ hz
  refine ⟨_, hrow, ?_⟩
  show p0 - (i : ℚ) * ((PASO : ℕ) : ℚ) = p0 - (i : ℚ) * 5
  norm_num [PASO]

lemma pipeline_rows_getLast?_precio (p0 : ℚ) :
    ∃ r : Row, (pipeline_rows p0).getLast? = some r ∧ r.precio = p0 - 120 := by
  obtain ⟨r, hr, hp⟩ := pipeline_rows_getElem?_precio p0 24 (by norm_num)
  refine ⟨r, ?_, by rw [hp]; norm_num⟩
  rw [List.getLast?_eq_getElem?, pipeline_rows_length]
  simpa using hr

lemma main_validacion_eq (p0 : ℚ) :
    main_validacion p0 = some (decide (round_dec 2 (p0 - 120) = p0 - 120)) := by
  obtain ⟨r, hlast, hp⟩ := pipeline_rows_getLast?_precio p0
  unfold main_validacion validar_precio_final main_df
  rw [List.map_map, List.getLast?_map, hlast]
  simp only [Option.map_some', Function.comp, redondear_fila, hp]
  norm_num [TOTAL_UNIDADES]

/-- C8 counterexample: at `start = 2700.001` the full-precision last ladder
price equals the expected `start − 120` exactly (so a validation on the
unrounded values succeeds), yet `main` reports a final-price mismatch,
because the rounding step mutates the dataframe before validation. -/
theorem C8_counterexample_rounding_affects_validation :
    main_validacion (2700 + 1 / 1000) = some false ∧
    validar_precio_final (generar_precios (2700 + 1 / 1000) 120 5)
      ((2700 + 1 / 1000) - 120) = some true := by
  constructor
  · rw [main_validacion_eq]
    simp only [Option.some_inj]
    rw [decide_eq_false_iff_not]
    norm_num [round_dec, round_half_even]
  · unfold validar_precio_final
    rw [generar_precios_getLast?]
    simp
    norm_num

/-- C8 (amended): the 2- and 4-decimal rounding is applied to the stored rows
*before* validation and summary extraction, so the final-price validation
compares the *rounded* last price against the unrounded expected value —
it succeeds exactly when `start − 120` is fixed by 2-decimal rounding —
and the four Summary scalars are the rounded values of the final
full-precision row. -/
theorem C8_rounding_applied_before_validation (p0 : ℚ) :
    main_validacion p0 = some (decide (round_dec 2 (p0 - 120) = p0 - 120)) ∧
    main_resumen p0 = ((pipeline_rows p0).getLast?).map
      (fun r => (round_dec 2 r.breakEven, round_dec 2 r.flotante,
        round_dec 2 r.gananciaPotencial, round_dec 4 r.lotesAcumulados)) := by
  refine ⟨main_validacion_eq p0, ?_⟩
  unfold main_resumen main_df
  rw [List.getLast?_map, Option.map_map]
  rfl

lemma pipeline_2700_row0_pos :
    0 < ((pipeline_rows 2700).getD 0 default).lotesAcumulados := by
  norm_num [pipeline_rows, generar_precios, List.range_succ, calcular_acumulados,
    asignar_lotes, lote_base, acumular, LOTES_A_UNIDADES, DIVISOR_LOTE,
    TOTAL_UNIDADES, PASO]

/-- Witness for C2 at concrete inputs. -/
theorem C2_generar_precios_ladder_witness :
    ((1 : ℕ) < 25 ∧
      (generar_precios 2700 120 5)[(1 : ℕ)]? = some (2700 - ((1 : ℕ) : ℚ) * 5)) ∧
    (0 < 7 ∧ (generar_precios 2700 100 7).length = 100 / 7 + 1 ∧
      1 ≤ (generar_precios 2700 100 7).length) :=
  ⟨⟨by norm_num, (C2_generar_precios_ladder 2700).1.2.1 1 (by norm_num)⟩,
   ⟨by norm_num, (C2_generar_precios_ladder 2700).2 100 7 (by norm_num)⟩⟩

/-- Witness for C3 at concrete inputs. -/
theorem C3_calcular_acumulados_fold_witness :
    (([(10 : ℚ), 5].zip [(1 : ℚ), 2])[(1 : ℕ)]? = some (5, 2)) ∧
    ((calcular_acumulados [10, 5] [1, 2] 10).length =
        ([(10 : ℚ), 5].zip [(1 : ℚ), 2]).length ∧
     ∃ r : Row, (calcular_acumulados [10, 5] [1, 2] 10)[(1 : ℕ)]? = some r ∧
       r.precio = 5 ∧ r.lotes = 2 ∧
       r.lotesAcumulados = sumLotes (([(10 : ℚ), 5].zip [(1 : ℚ), 2]).take (1 + 1)) ∧
       r.costoAcumulado = sumCosto (([(10 : ℚ), 5].zip [(1 : ℚ), 2]).take (1 + 1)) ∧
       r.breakEven = r.costoAcumulado / (r.lotesAcumulados * LOTES_A_UNIDADES) ∧
       r.flotante = (r.precio - r.breakEven) * (r.lotesAcumulados * LOTES_A_UNIDADES) ∧
       r.puntosDeSalida = |r.precio - r.breakEven| ∧
       r.gananciaPotencial = (10 - r.breakEven) * (r.lotesAcumulados * LOTES_A_UNIDADES)) :=
  ⟨rfl, C3_calcular_acumulados_fold 10 [10, 5] [1, 2] 1 5 2 rfl⟩

/-- Witness for C5 at concrete inputs. -/
theorem C5_validar_precio_final_witness :
    ([(1 : ℚ)].getLast? = some 1) ∧
    (((validar_precio_final [(1 : ℚ)] 2 = some false ↔ (1 : ℚ) ≠ 2) ∧
      (validar_precio_final [(1 : ℚ)] 2 = some true ↔ (1 : ℚ) = 2)) ∧
     validar_precio_final (generar_precios 2700 121 5) (2700 - 121) = some false) :=
  ⟨rfl, C5_validar_precio_final [(1 : ℚ)] 2 1 rfl⟩

/-- Witness for C6 at concrete inputs: both lots zero, so the second row
has zero accumulated lots and the first lot is indeed zero. -/
theorem C6_break_even_zero_denominator_witness :
    ((∀ l ∈ [(0 : ℚ), 0], 0 ≤ l) ∧
      1 < (calcular_acumulados [(1 : ℚ), 2] [(0 : ℚ), 0] 0).length) ∧
    ((((calcular_acumulados [(1 : ℚ), 2] [(0 : ℚ), 0] 0).getD 1 default).lotesAcumulados *
        LOTES_A_UNIDADES = 0 ↔
      ((calcular_acumulados [(1 : ℚ), 2] [(0 : ℚ), 0] 0).getD 1 default).lotesAcumulados = 0) ∧
     (((calcular_acumulados [(1 : ℚ), 2] [(0 : ℚ), 0] 0).getD 1 default).lotesAcumulados = 0 →
      [(0 : ℚ), 0][(0 : ℕ)]? = some 0)) := by
  have hnn : ∀ l ∈ [(0 : ℚ), 0], 0 ≤ l := by
    intro l hl
    rcases List.mem_cons.mp hl with h | h
    · rw [h]
    · rcases List.mem_cons.mp h with h2 | h2
      · rw [h2]
      · exact absurd h2 (List.not_mem_nil l)
  have hlen : 1 < (calcular_acumulados [(1 : ℚ), 2] [(0 : ℚ), 0] 0).length := by
    show 1 < (acumular 0 ([(1 : ℚ), 2].zip [(0 : ℚ), 0]) 0 0).length
    rw [acumular_length]
    norm_num [List.zip_cons_cons]
  exact ⟨⟨hnn, hlen⟩, C6_break_even_zero_denominator 0 [1, 2] [0, 0] hnn 1 hlen⟩

/-- Witness for C7 at concrete inputs. -/
theorem C7_lotes_acumulados_monotone_witness :
    (0 + 1 < (pipeline_rows 2700).length) ∧
    ((pipeline_rows 2700).getD 0 default).lotesAcumulados ≤
      ((pipeline_rows 2700).getD (0 + 1) default).lotesAcumulados :=
  ⟨by rw [pipeline_rows_length]; norm_num,
   C7_lotes_acumulados_monotone 2700 0 (by rw [pipeline_rows_length]; norm_num)⟩

/-- Witness for C9 at the first ladder level. -/
theorem C9_pipeline_distances_witness :
    ((2700 : ℚ) ∈ generar_precios 2700 120 5) ∧
    ((∃ k : ℕ, k ≤ 24 ∧ (2700 : ℚ) - 2700 = 5 * (k : ℚ)) ∧
     ¬(91 ≤ (2700 : ℚ) - 2700 ∧ (2700 : ℚ) - 2700 ≤ 94) ∧
     ((0 ≤ (2700 : ℚ) - 2700 ∧ (2700 : ℚ) - 2700 ≤ 15) ∨ (2700 : ℚ) - 2700 = 20 ∨
      (2700 : ℚ) - 2700 = 25 ∨ (2700 : ℚ) - 2700 = 30 ∨
      (35 ≤ (2700 : ℚ) - 2700 ∧ (2700 : ℚ) - 2700 ≤ 55) ∨ (2700 : ℚ) - 2700 = 60 ∨
      (65 ≤ (2700 : ℚ) - 2700 ∧ (2700 : ℚ) - 2700 ≤ 90) ∨
      (95 ≤ (2700 : ℚ) - 2700 ∧ (2700 : ℚ) - 2700 ≤ 120))) := by
  have hmem : (2700 : ℚ) ∈ generar_precios 2700 120 5 :=
    (generar_precios_mem 2700 120 5 2700).mpr ⟨0, by norm_num, by norm_num⟩
  exact ⟨hmem, C9_pipeline_distances 2700 2700 hmem⟩

/-- Witness for C10 at the first pipeline row. -/
theorem C10_break_even_le_start_witness :
    (0 < (pipeline_rows 2700).length ∧
     0 < ((pipeline_rows 2700).getD 0 default).lotesAcumulados) ∧
    (((pipeline_rows 2700).getD 0 default).breakEven ≤ 2700 ∧
     0 ≤ ((pipeline_rows 2700).getD 0 default).gananciaPotencial) :=
  ⟨⟨by rw [pipeline_rows_length]; norm_num, pipeline_2700_row0_pos⟩,
   C10_break_even_le_start 2700 0 (by rw [pipeline_rows_length]; norm_num)
     pipeline_2700_row0_pos⟩

end Calculadora
